import Mathlib

/-!
Verification of the multipart-upload orchestrator and R2 client layer of the
cf-r2 repository.

The shallow embedding below is translated from the TypeScript sources:

* `src/unnamed/part_000` — the interactive CLI. Its `multipartUpload`
  (lines 282–334) is the orchestrator in scope: it computes the effective
  chunk size (line 287), creates the multipart upload, runs the part loop
  (lines 303–318), and calls `completeMultipartUpload` (lines 321–326),
  all inside one `try`/`catch` whose `catch` prints a fixed failure
  message (lines 330–333).
* `src/src/file-management.ts` — an example script with a near-identical
  `multipartUpload` (lines 234–287) whose default chunk size differs
  (5 MiB instead of 50 MiB, line 241).
* `src/unnamed/part_001` (the client config module) and
  `src/src/upload.ts` — the client singleton (`initR2Client` /
  `getR2Client`) and the per-operation command constructors.

JavaScript numeric conventions used by the embedding: array indices and
byte counts are naturals; the loop guard `i < totalSize / chunkSize` and
the progress expressions are evaluated in exact rational arithmetic
(`ℚ`), which agrees with IEEE double evaluation for the file sizes the
tool handles; the loop guard for naturals is `i * chunkSize < totalSize`;
`Math.floor` of the progress expression is kept in an equivalent
natural-division form so the model is kernel-evaluable, with the theorem
`hashCount_eq_floor` proving it equal to the literal rational floor;
`String.prototype.repeat` throws a `RangeError` exactly when its
argument is negative (ECMA-262 §22.1.3.17), which the run model records
as an error outcome.
-/

/-- Effective chunk size of the CLI orchestrator, from
`src/unnamed/part_000` line 287:
`const chunkSize = option?.chunkSize || 50 * 1024 * 1024`.
A missing or zero (falsy) option falls back to the 50 MiB default. -/
def effectiveChunkSize (o : Option Nat) : Nat :=
  match o with
  | some c => if c = 0 then 50 * 1024 * 1024 else c
  | none => 50 * 1024 * 1024

/-- Effective chunk size of the example-script variant, from
`src/src/file-management.ts` line 241:
`const chunkSize = option?.chunkSize || 5 * 1024 * 1024`.
Its default is 5 MiB, not 50 MiB. -/
def effectiveChunkSizeFM (o : Option Nat) : Nat :=
  match o with
  | some c => if c = 0 then 5 * 1024 * 1024 else c
  | none => 5 * 1024 * 1024

/-- Number of iterations of the part loop
`for (let i = 0; i < totalSize / chunkSize; i++)` (part_000 line 303):
the smallest `i` with `¬(i * chunkSize < totalSize)`, which for
`chunkSize > 0` is `⌈totalSize / chunkSize⌉ = (totalSize + chunkSize - 1) / chunkSize`.
The lemma `lt_numParts_iff` ties this closed form back to the loop guard. -/
def numParts (total c : Nat) : Nat := (total + c - 1) / c

/-- Byte range of the 0-based part `i`, from part_000 line 305:
`fileBuff.slice(i * chunkSize, (i + 1) * chunkSize > totalSize ? totalSize : (i + 1) * chunkSize)`. -/
def partRange (total c i : Nat) : Nat × Nat :=
  (i * c, if (i + 1) * c > total then total else (i + 1) * c)

/-- Byte length of part `i`. -/
def partWidth (total c i : Nat) : Nat :=
  (partRange total c i).2 - (partRange total c i).1

/-- The ranges computed by the loop, in iteration order. -/
def partRanges (total c : Nat) : List (Nat × Nat) :=
  (List.range (numParts total c)).map (partRange total c)

/-- The part sizes computed by the loop, in iteration order. -/
def partSizes (total c : Nat) : List Nat :=
  (List.range (numParts total c)).map (partWidth total c)

/-- Exact value of `totalSize / chunkSize` as evaluated on part_000
lines 303 and 317 (JavaScript real division). -/
def totalPartsQ (total c : Nat) : ℚ := (total : ℚ) / (c : ℚ)

/-- Exact value of the reported percentage
`partNumber / (totalSize / chunkSize) * 100` (part_000 line 317). -/
def progressPercent (total c pn : Nat) : ℚ :=
  (pn : ℚ) / totalPartsQ total c * 100

/-- Value of `Math.floor(partNumber / (totalSize / chunkSize) * 50)`
(part_000 line 317), the number of `#` characters of the progress bar.
For `totalSize > 0` the JS expression
`partNumber / (totalSize / chunkSize) * 50` is the exact rational
`50 * pn * c / total`, so its floor is the natural-number division
below; the theorem `hashCount_eq_floor` proves this form equal to the
literal floor expression. -/
def hashCount (total c pn : Nat) : ℤ :=
  ((50 * pn * c / total : Nat) : ℤ)

/-- The space padding of the progress bar is
`" ".repeat(50 - hashCount)` (part_000 line 317); `String.repeat`
throws a `RangeError` when its argument is negative. -/
def progressThrows (total c pn : Nat) : Bool :=
  50 - hashCount total c pn < 0

/-- One record pushed into the `parts` array (part_000 line 316). -/
structure PartRecord where
  PartNumber : Nat
  ETag : String
deriving DecidableEq, Repr

/-- One network call issued through the store client by the orchestrator.
`abortMU` is the call `abortMultipartUpload` from `src/src/upload.ts`
lines 170–184 would issue; it is listed so that its absence from every
orchestrator trace is a meaningful statement. -/
inductive StoreCall where
  | createMU
  | uploadPartCall (partNumber sliceStart sliceEnd : Nat)
  | completeMU (parts : List PartRecord)
  | abortMU
deriving DecidableEq, Repr

/-- Failure modes of one upload attempt. `sdkError` is an exception
thrown by a store call (carrying only the cause the SDK supplied —
the orchestrator wraps no part number around it); `noUploadId` is
`throw new Error(...)` at part_000 line 296; `rangeError` is the
`RangeError` thrown by the negative `repeat` count at line 317. -/
inductive UploadErr where
  | sdkError (cause : String)
  | noUploadId
  | rangeError
deriving DecidableEq, Repr

instance exceptDecEq {α β : Type} [DecidableEq α] [DecidableEq β] :
    DecidableEq (Except α β)
  | .error x, .error y =>
    if h : x = y then .isTrue (congrArg Except.error h)
    else .isFalse (fun hh => h (by cases hh; rfl))
  | .error _, .ok _ => .isFalse (fun hh => Except.noConfusion hh)
  | .ok _, .error _ => .isFalse (fun hh => Except.noConfusion hh)
  | .ok x, .ok y =>
    if h : x = y then .isTrue (congrArg Except.ok h)
    else .isFalse (fun hh => h (by cases hh; rfl))

/-- Environment of one run: the results the remote store returns for
`createMultipartUpload`, each `uploadPart`, and
`completeMultipartUpload`. `createResult = .ok none` models a response
with a falsy `UploadId`. -/
structure Oracle where
  createResult : Except String (Option String)
  partResult : Nat → Except String String
  completeResult : Except String String

/-- State produced by the part loop (part_000 lines 303–318). -/
structure LoopOut where
  calls : List StoreCall
  reports : List ℚ
  pushed : List PartRecord
  result : Except UploadErr Unit
deriving DecidableEq, Repr

/-- The part loop of part_000 lines 303–318, starting at index `i` with
`fuel` iterations of budget (the top-level call passes
`numParts total c`, which `lt_numParts_iff` shows is never exhausted
while the guard holds). Each iteration: re-test the guard
`i < totalSize / chunkSize`; slice the chunk; call `uploadPart`
(a thrown error aborts the whole `try` block); push the part record;
update the progress text, whose `repeat` call throws a `RangeError`
when the padding count `50 - hashCount` is negative. -/
def partsLoop (o : Oracle) (total c : Nat) : Nat → Nat → LoopOut
  | _, 0 => ⟨[], [], [], .ok ()⟩
  | i, fuel + 1 =>
    if i * c < total then
      let pn := i + 1
      let sliceStart := i * c
      let sliceEnd := if (i + 1) * c > total then total else (i + 1) * c
      let call := StoreCall.uploadPartCall pn sliceStart sliceEnd
      match o.partResult pn with
      | .error cause => ⟨[call], [], [], .error (.sdkError cause)⟩
      | .ok etag =>
        if progressThrows total c pn then
          ⟨[call], [], [⟨pn, etag⟩], .error .rangeError⟩
        else
          let rest := partsLoop o total c (i + 1) fuel
          ⟨call :: rest.calls, progressPercent total c pn :: rest.reports,
            ⟨pn, etag⟩ :: rest.pushed, rest.result⟩
    else ⟨[], [], [], .ok ()⟩

/-- Observable outcome of the `try` block of `multipartUpload`
(part_000 lines 289–328). -/
structure RunOut where
  calls : List StoreCall
  reports : List ℚ
  result : Except UploadErr String
deriving DecidableEq, Repr

/-- The `try` block of `multipartUpload` (part_000 lines 289–328):
create the multipart upload (`.error` models a thrown SDK exception,
`.ok none` a falsy `UploadId`, rejected at line 295); run the part
loop; on success call `completeMultipartUpload` with the accumulated
`parts` array. -/
def multipartTry (o : Oracle) (total c : Nat) : RunOut :=
  match o.createResult with
  | .error cause => ⟨[.createMU], [], .error (.sdkError cause)⟩
  | .ok none => ⟨[.createMU], [], .error .noUploadId⟩
  | .ok (some _uploadId) =>
    let lp := partsLoop o total c 0 (numParts total c)
    match lp.result with
    | .error e => ⟨.createMU :: lp.calls, lp.reports, .error e⟩
    | .ok () =>
      match o.completeResult with
      | .error cause =>
        ⟨.createMU :: (lp.calls ++ [.completeMU lp.pushed]), lp.reports,
          .error (.sdkError cause)⟩
      | .ok res =>
        ⟨.createMU :: (lp.calls ++ [.completeMU lp.pushed]), lp.reports, .ok res⟩

/-- Message printed by the `catch` handler of `multipartUpload`
(part_000 line 331): a fixed string carrying no part number. -/
def failMsg : String := "分段上传失败\n"

/-- Message printed on success (part_000 line 328). -/
def successMsg (fileName : String) : String := "分段上传完成" ++ fileName

/-- The whole `multipartUpload` function of part_000 lines 282–334 as
seen by its caller: the effective chunk size is applied (line 287), the
`try` block runs, and any error is swallowed by the `catch` handler,
which prints `failMsg`; the function itself returns normally either
way. The first component is the ambient trace, the second the message
the caller observes. -/
def multipartUpload (o : Oracle) (fileName : String) (total : Nat)
    (chunkOpt : Option Nat) : RunOut × String :=
  let r := multipartTry o total (effectiveChunkSize chunkOpt)
  match r.result with
  | .ok _ => (r, successMsg fileName)
  | .error _ => (r, failMsg)

/-- Part numbers of the `uploadPart` calls of a trace, in call order. -/
def partCallNums : List StoreCall → List Nat
  | [] => []
  | .uploadPartCall pn _ _ :: l => pn :: partCallNums l
  | .createMU :: l => partCallNums l
  | .completeMU _ :: l => partCallNums l
  | .abortMU :: l => partCallNums l

/-- Shape of the `uploadPart` calls the loop issues for part numbers
`start, start+1, ..., start+m-1`: part `pn` carries the slice
`[(pn-1)*c, min(pn*c, total))`. -/
def loopCallsFrom (total c start m : Nat) : List StoreCall :=
  (List.range' start m).map
    (fun pn => StoreCall.uploadPartCall pn ((pn - 1) * c)
      (if pn * c > total then total else pn * c))

/-- An oracle whose every store call succeeds. -/
def allOkOracle : Oracle :=
  ⟨.ok (some "uid"), fun _ => .ok "etag", .ok "done"⟩

/-- An oracle for which `uploadPart` fails (throws with cause "boom")
exactly on part `k` and succeeds elsewhere. -/
def failAt (k : Nat) : Oracle :=
  ⟨.ok (some "uid"), fun pn => if pn = k then .error "boom" else .ok "etag",
    .ok "done"⟩

-- ## The client singleton (src/unnamed/part_001 and src/src/upload.ts)

/-- Configuration passed to `createR2Client` (part_001 lines 6–11). -/
structure R2Config where
  accountId : String
  accessKeyId : String
  secretAccessKey : String
  region : Option String
deriving DecidableEq, Repr

/-- An `S3Client` as configured by `createR2Client`
(part_001 lines 18–32). -/
structure S3Client where
  region : String
  endpoint : String
  accessKeyId : String
  secretAccessKey : String
  forcePathStyle : Bool
deriving DecidableEq, Repr

/-- `createR2Client` (part_001 lines 18–32): builds a fresh client from
the config, defaulting the region to "auto". -/
def createR2Client (config : R2Config) : S3Client :=
  ⟨config.region.getD "auto",
    "https://" ++ config.accountId ++ ".r2.cloudflarestorage.com",
    config.accessKeyId, config.secretAccessKey, true⟩

/-- The module-level singleton `defaultR2Client` (part_001 line 37) is
an `Option S3Client`; `initR2Client` (lines 43–45) replaces it with a
newly created client. -/
def initR2Client (config : R2Config) (_st : Option S3Client) : Option S3Client :=
  some (createR2Client config)

/-- The error message thrown by `getR2Client` (part_001 line 54). -/
def notInitMsg : String := "R2 client not initialized. Call initR2Client() first."

/-- `getR2Client` (part_001 lines 52–57): throws when the singleton has
not been set, otherwise returns it. -/
def getR2Client (st : Option S3Client) : Except String S3Client :=
  match st with
  | none => .error notInitMsg
  | some client => .ok client

/-- A command constructed by one of the storage operations of
`src/src/upload.ts`, after `getR2Client` has succeeded. Bodies are
byte lists; option bags carry the fields the source forwards. -/
inductive Command where
  | putObjectCmd (bucket key : String) (body : List Nat)
      (contentType : Option String) (metadata : List (String × String))
  | createMultipartUploadCmd (bucket key : String)
      (contentType : Option String) (metadata : List (String × String))
  | uploadPartCmd (bucket key uploadId : String) (partNumber : Nat)
      (body : List Nat)
  | completeMultipartUploadCmd (bucket key uploadId : String)
      (parts : List PartRecord)
  | abortMultipartUploadCmd (bucket key uploadId : String)
  | copyObjectCmd (sourceBucket sourceKey destBucket destKey : String)
deriving DecidableEq, Repr

/-- `putObject` (upload.ts lines 21–41): `getR2Client` first — failing
before any command is constructed — then build and send the command. -/
def putObject (st : Option S3Client) (bucket key : String) (body : List Nat)
    (contentType : Option String) (metadata : List (String × String)) :
    Except String (S3Client × Command) :=
  match getR2Client st with
  | .error e => .error e
  | .ok client => .ok (client, .putObjectCmd bucket key body contentType metadata)

/-- `createMultipartUpload` (upload.ts lines 50–68). -/
def createMultipartUpload (st : Option S3Client) (bucket key : String)
    (contentType : Option String) (metadata : List (String × String)) :
    Except String (S3Client × Command) :=
  match getR2Client st with
  | .error e => .error e
  | .ok client => .ok (client, .createMultipartUploadCmd bucket key contentType metadata)

/-- `uploadPart` (upload.ts lines 79–97). -/
def uploadPart (st : Option S3Client) (bucket key uploadId : String)
    (partNumber : Nat) (body : List Nat) : Except String (S3Client × Command) :=
  match getR2Client st with
  | .error e => .error e
  | .ok client => .ok (client, .uploadPartCmd bucket key uploadId partNumber body)

/-- `completeMultipartUpload` (upload.ts lines 143–161). -/
def completeMultipartUpload (st : Option S3Client) (bucket key uploadId : String)
    (parts : List PartRecord) : Except String (S3Client × Command) :=
  match getR2Client st with
  | .error e => .error e
  | .ok client => .ok (client, .completeMultipartUploadCmd bucket key uploadId parts)

/-- `abortMultipartUpload` (upload.ts lines 170–184). -/
def abortMultipartUpload (st : Option S3Client) (bucket key uploadId : String) :
    Except String (S3Client × Command) :=
  match getR2Client st with
  | .error e => .error e
  | .ok client => .ok (client, .abortMultipartUploadCmd bucket key uploadId)

/-- `copyObject` (upload.ts lines 195–216). -/
def copyObject (st : Option S3Client) (sourceBucket sourceKey destBucket destKey : String) :
    Except String (S3Client × Command) :=
  match getR2Client st with
  | .error e => .error e
  | .ok client => .ok (client, .copyObjectCmd sourceBucket sourceKey destBucket destKey)

-- ## Helper lemmas

/-- The loop guard `i < totalSize / chunkSize` of part_000 line 303 holds
exactly for the first `numParts` indices. -/
theorem lt_numParts_iff (total c i : Nat) (hc : 0 < c) :
    i < numParts total c ↔ i * c < total := by
  unfold numParts
  rw [Nat.lt_iff_add_one_le, Nat.le_div_iff_mul_le hc, Nat.add_mul, Nat.one_mul]
  generalize i * c = t
  omega

/-- The loop exits precisely after `numParts` iterations: the guard
fails at `numParts` and beyond. -/
theorem numParts_mul_ge (total c : Nat) (hc : 0 < c) :
    total ≤ numParts total c * c := by
  by_contra h
  have h2 := (lt_numParts_iff total c (numParts total c) hc).mpr (by omega)
  omega

theorem numParts_pos_iff (total c : Nat) (hc : 0 < c) :
    0 < numParts total c ↔ 0 < total := by
  rw [lt_numParts_iff total c 0 hc, Nat.zero_mul]

theorem pred_numParts_mul_lt (total c : Nat) (hc : 0 < c) (ht : 0 < total) :
    (numParts total c - 1) * c < total := by
  have hpos : 0 < numParts total c := (numParts_pos_iff total c hc).mpr ht
  exact (lt_numParts_iff total c (numParts total c - 1) hc).mp (by omega)

/-- The closed form `(total + c - 1) / c` is the usual ceiling:
`total / c`, plus one when the division has a remainder. -/
theorem numParts_eq_div_add (total c : Nat) (hc : 0 < c) :
    numParts total c = total / c + (if total % c = 0 then 0 else 1) := by
  have hdm : c * (total / c) + total % c = total := Nat.div_add_mod total c
  have hmod : total % c < c := Nat.mod_lt total hc
  unfold numParts
  by_cases h : total % c = 0
  · have h1 : total + c - 1 = c * (total / c) + (c - 1) := by
      generalize c * (total / c) = m at hdm ⊢
      omega
    have h2 : (c - 1) / c = 0 := Nat.div_eq_of_lt (by omega)
    rw [h1, Nat.mul_add_div hc, h2, h]
    simp
  · have h1 : total + c - 1 = c * (total / c + 1) + (total % c - 1) := by
      have hmul : c * (total / c + 1) = c * (total / c) + c := by ring
      rw [hmul]
      generalize c * (total / c) = m at hdm ⊢
      omega
    have h2 : (total % c - 1) / c = 0 := Nat.div_eq_of_lt (by omega)
    rw [h1, Nat.mul_add_div hc, h2]
    simp [h]


/-- The integer form of `hashCount` equals the literal JS expression
`Math.floor(partNumber / (totalSize / chunkSize) * 50)` evaluated in
exact rational arithmetic. -/
theorem hashCount_eq_floor (total c : Nat) (ht : 0 < total) (hc : 0 < c)
    (pn : Nat) :
    hashCount total c pn = ⌊(pn : ℚ) / totalPartsQ total c * 50⌋ := by
  unfold hashCount totalPartsQ
  have htq : ((total : ℚ)) ≠ 0 := by
    exact_mod_cast Nat.pos_iff_ne_zero.mp ht
  have hcq : ((c : ℚ)) ≠ 0 := by
    exact_mod_cast Nat.pos_iff_ne_zero.mp hc
  have hval : (pn : ℚ) / ((total : ℚ) / (c : ℚ)) * 50 =
      (((50 * pn * c : ℕ) : ℤ) : ℚ) / ((total : ℕ) : ℚ) := by
    push_cast
    field_simp
    ring
  rw [hval, Rat.floor_intCast_div_natCast]
  exact Int.ofNat_tdiv _ _

/-- For a part whose slice ends strictly inside the file
(`j * c < total`, true of every part except the last), the progress bar
has fewer than 50 hash marks, so its padding count is non-negative. -/
theorem hashCount_lt_of_lt (total c j : Nat) (ht : 0 < total)
    (hj : j * c < total) : hashCount total c j < 50 := by
  unfold hashCount
  have h1 : 50 * j * c < 50 * total := by
    calc 50 * j * c = 50 * (j * c) := by ring
    _ < 50 * total := by omega
  have h2 : 50 * j * c / total < 50 :=
    (Nat.div_lt_iff_lt_mul ht).mpr (by omega)
  exact_mod_cast h2

/-- Non-final parts never trigger the negative-`repeat` `RangeError`. -/
theorem progressThrows_eq_false_of_lt (total c j : Nat)
    (ht : 0 < total) (hj : j * c < total) :
    progressThrows total c j = false := by
  have h := hashCount_lt_of_lt total c j ht hj
  unfold progressThrows
  simp only [decide_eq_false_iff_not]
  omega

theorem abortMU_not_mem_loopCallsFrom (total c start m : Nat) :
    StoreCall.abortMU ∉ loopCallsFrom total c start m := by
  simp [loopCallsFrom]

theorem completeMU_not_mem_loopCallsFrom (total c start m : Nat)
    (ps : List PartRecord) :
    StoreCall.completeMU ps ∉ loopCallsFrom total c start m := by
  simp [loopCallsFrom]

theorem partCallNums_append (l1 l2 : List StoreCall) :
    partCallNums (l1 ++ l2) = partCallNums l1 ++ partCallNums l2 := by
  induction l1 with
  | nil => rfl
  | cons a l ih => cases a <;> simp [partCallNums, ih]

theorem partCallNums_loopCallsFrom (total c : Nat) :
    ∀ m start, partCallNums (loopCallsFrom total c start m) = List.range' start m := by
  intro m
  induction m with
  | zero => intro start; rfl
  | succ m ih =>
    intro start
    have hstep : loopCallsFrom total c start (m + 1) =
        StoreCall.uploadPartCall start ((start - 1) * c)
            (if start * c > total then total else start * c) ::
          loopCallsFrom total c (start + 1) m := by
      simp [loopCallsFrom, List.range'_succ]
    rw [hstep, List.range'_succ]
    simp only [partCallNums]
    exact congrArg (start :: ·) (ih (start + 1))

/-- The calls issued by the part loop are always `uploadPart` calls for a
contiguous run of part numbers starting at `i + 1`, at most one per
iteration of budget, each carrying the slice bounds of part_000
line 305. -/
theorem partsLoop_calls_shape (o : Oracle) (total c : Nat) :
    ∀ fuel i, ∃ m, m ≤ fuel ∧
      (partsLoop o total c i fuel).calls = loopCallsFrom total c (i + 1) m := by
  intro fuel
  induction fuel with
  | zero =>
    intro i
    exact ⟨0, Nat.le_refl 0, by simp [partsLoop, loopCallsFrom]⟩
  | succ fuel ih =>
    intro i
    by_cases hguard : i * c < total
    · cases hpr : o.partResult (i + 1) with
      | error cause =>
        refine ⟨1, by omega, ?_⟩
        simp [partsLoop, hguard, hpr, loopCallsFrom, List.range']
      | ok etag =>
        cases hth : progressThrows total c (i + 1) with
        | true =>
          refine ⟨1, by omega, ?_⟩
          simp [partsLoop, hguard, hpr, hth, loopCallsFrom, List.range']
        | false =>
          obtain ⟨m, hm, hcalls⟩ := ih (i + 1)
          refine ⟨m + 1, by omega, ?_⟩
          simp only [partsLoop, if_pos hguard, hpr, hth]
          rw [hcalls]
          simp [loopCallsFrom, List.range'_succ]
    · exact ⟨0, by omega, by simp [partsLoop, hguard, loopCallsFrom]⟩

/-- Every trace of the `try` block is `createMultipartUpload`, followed by
`uploadPart` calls for parts `1..m` with `m ≤ numParts`, optionally
followed by a single `completeMultipartUpload`. -/
theorem multipartTry_calls_cases (o : Oracle) (total c : Nat) :
    ∃ m, m ≤ numParts total c ∧
      ((multipartTry o total c).calls = [.createMU] ∨
       (multipartTry o total c).calls = .createMU :: loopCallsFrom total c 1 m ∨
       ∃ ps, (multipartTry o total c).calls =
         .createMU :: (loopCallsFrom total c 1 m ++ [.completeMU ps])) := by
  unfold multipartTry
  cases hcr : o.createResult with
  | error cause => exact ⟨0, Nat.zero_le _, Or.inl rfl⟩
  | ok uo =>
    cases uo with
    | none => exact ⟨0, Nat.zero_le _, Or.inl rfl⟩
    | some uid =>
      obtain ⟨m, hm, hcalls⟩ := partsLoop_calls_shape o total c (numParts total c) 0
      refine ⟨m, hm, ?_⟩
      cases hres : (partsLoop o total c 0 (numParts total c)).result with
      | error e =>
        refine Or.inr (Or.inl ?_)
        simp [hres, hcalls]
      | ok u =>
        cases u
        cases hco : o.completeResult with
        | error cause =>
          refine Or.inr (Or.inr ⟨(partsLoop o total c 0 (numParts total c)).pushed, ?_⟩)
          simp [hres, hco, hcalls]
        | ok res =>
          refine Or.inr (Or.inr ⟨(partsLoop o total c 0 (numParts total c)).pushed, ?_⟩)
          simp [hres, hco, hcalls]

/-- If `uploadPart` throws on part `k` and succeeds on every earlier
part, the loop attempts exactly parts `i+1 .. k` and aborts with the raw
SDK exception. -/
theorem partsLoop_fail (o : Oracle) (total c k : Nat) (cause : String)
    (hc : 0 < c) (_hk : 1 ≤ k) (hkn : k ≤ numParts total c)
    (hfail : o.partResult k = .error cause)
    (hok : ∀ j, 1 ≤ j → j < k → ∃ e, o.partResult j = .ok e) :
    ∀ fuel i, i < k → k ≤ i + fuel →
      (partsLoop o total c i fuel).calls = loopCallsFrom total c (i + 1) (k - i) ∧
      (partsLoop o total c i fuel).result = .error (.sdkError cause) := by
  intro fuel
  induction fuel with
  | zero => intro i h1 h2; omega
  | succ fuel ih =>
    intro i h1 h2
    have ht : 0 < total := by
      have hnp : 0 < numParts total c := by omega
      exact (numParts_pos_iff total c hc).mp hnp
    have hguard : i * c < total :=
      (lt_numParts_iff total c i hc).mp (by omega)
    by_cases hik : i + 1 = k
    · have hpr : o.partResult (i + 1) = .error cause := by rw [hik]; exact hfail
      have hki : k - i = 1 := by omega
      constructor
      · simp [partsLoop, hguard, hpr, hki, loopCallsFrom, List.range']
      · simp [partsLoop, hguard, hpr]
    · have hlt : i + 1 < k := by omega
      obtain ⟨e, he⟩ := hok (i + 1) (by omega) hlt
      have hfit : (i + 1) * c < total :=
        (lt_numParts_iff total c (i + 1) hc).mp (by omega)
      have hnothrow : progressThrows total c (i + 1) = false :=
        progressThrows_eq_false_of_lt total c (i + 1) ht hfit
      obtain ⟨hcalls, hres⟩ := ih (i + 1) hlt (by omega)
      have hki : k - i = (k - (i + 1)) + 1 := by omega
      constructor
      · simp only [partsLoop, if_pos hguard, he, hnothrow]
        rw [hcalls, hki]
        simp [loopCallsFrom, List.range'_succ]
      · simp only [partsLoop, if_pos hguard, he, hnothrow]
        exact hres

/-- C1: for every totalSize > 0 and chunkSize > 0, the byte ranges computed
by the multipart upload loop (part i covers [i*chunkSize,
min((i+1)*chunkSize, totalSize))) are contiguous, non-overlapping, cover
[0, totalSize) exactly once, and there are exactly ceil(totalSize/chunkSize)
of them; in particular when totalSize = chunkSize exactly 1 part is
produced. -/
theorem C1_chunk_ranges_partition (total c : Nat) (ht : 0 < total) (hc : 0 < c) :
    (partRanges total c).length = numParts total c ∧
    ⌈(total : ℚ) / (c : ℚ)⌉₊ = numParts total c ∧
    (∀ i, i * c < total ↔ i < numParts total c) ∧
    (partRange total c 0).1 = 0 ∧
    (∀ i, i + 1 < numParts total c →
      (partRange total c i).2 = (partRange total c (i + 1)).1) ∧
    (partRange total c (numParts total c - 1)).2 = total ∧
    (∀ b, b < total → ∃! i, i < numParts total c ∧
      (partRange total c i).1 ≤ b ∧ b < (partRange total c i).2) ∧
    (total = c → numParts total c = 1) := by
  have hnpos : 0 < numParts total c := (numParts_pos_iff total c hc).mpr ht
  have hge := numParts_mul_ge total c hc
  have hlt := pred_numParts_mul_lt total c hc ht
  have hcq : (0 : ℚ) < (c : ℚ) := by exact_mod_cast hc
  refine ⟨by simp [partRanges], ?_, ?_, by simp [partRange], ?_, ?_, ?_, ?_⟩
  · rw [Nat.ceil_eq_iff (by omega)]
    constructor
    · rw [lt_div_iff₀ hcq]
      exact_mod_cast hlt
    · rw [div_le_iff₀ hcq]
      exact_mod_cast hge
  · exact fun i => (lt_numParts_iff total c i hc).symm
  · intro i hi
    have h2 : (i + 1) * c < total := (lt_numParts_iff total c (i + 1) hc).mp hi
    simp only [partRange]
    rw [if_neg (by omega)]
  · have hsucc : numParts total c - 1 + 1 = numParts total c := by omega
    simp only [partRange]
    rw [hsucc]
    by_cases hgt : numParts total c * c > total
    · rw [if_pos hgt]
    · rw [if_neg hgt]
      exact le_antisymm (Nat.not_lt.mp hgt) hge
  · intro b hb
    have hfloor : b / c * c ≤ b := Nat.div_mul_le_self b c
    have hdm : b / c * c + b % c = b := by
      rw [Nat.mul_comm]; exact Nat.div_add_mod b c
    have hmod : b % c < c := Nat.mod_lt b hc
    have hbc : b < (b / c + 1) * c := by
      rw [Nat.add_mul, Nat.one_mul]
      generalize b / c * c = t at hdm ⊢
      omega
    refine ⟨b / c, ⟨?_, ?_, ?_⟩, ?_⟩
    · exact (lt_numParts_iff total c (b / c) hc).mpr (Nat.lt_of_le_of_lt hfloor hb)
    · exact hfloor
    · simp only [partRange]
      by_cases hgt : (b / c + 1) * c > total
      · rw [if_pos hgt]; exact hb
      · rw [if_neg hgt]; exact hbc
    · rintro j ⟨_hj, hj1, hj2⟩
      simp only [partRange] at hj1 hj2
      have hj2' : b < (j + 1) * c := by
        by_cases hgt : (j + 1) * c > total
        · rw [if_pos hgt] at hj2; omega
        · rwa [if_neg hgt] at hj2
      exact (Nat.div_eq_of_lt_le hj1 hj2').symm
  · intro h
    subst h
    rw [numParts_eq_div_add total total (by omega), Nat.div_self (by omega),
      Nat.mod_self]
    simp

/-- Witness for C1 at the spec's concrete instance
totalSize = chunkSize = 50_000_000 (one single part). -/
theorem C1_witness :
    0 < 50000000 ∧
    ((partRanges 50000000 50000000).length = numParts 50000000 50000000 ∧
     ⌈(50000000 : ℚ) / (50000000 : ℚ)⌉₊ = numParts 50000000 50000000 ∧
     (∀ i, i * 50000000 < 50000000 ↔ i < numParts 50000000 50000000) ∧
     (partRange 50000000 50000000 0).1 = 0 ∧
     (∀ i, i + 1 < numParts 50000000 50000000 →
       (partRange 50000000 50000000 i).2 = (partRange 50000000 50000000 (i + 1)).1) ∧
     (partRange 50000000 50000000 (numParts 50000000 50000000 - 1)).2 = 50000000 ∧
     (∀ b, b < 50000000 → ∃! i, i < numParts 50000000 50000000 ∧
       (partRange 50000000 50000000 i).1 ≤ b ∧ b < (partRange 50000000 50000000 i).2) ∧
     (50000000 = 50000000 → numParts 50000000 50000000 = 1)) :=
  ⟨by norm_num, C1_chunk_ranges_partition 50000000 50000000 (by norm_num) (by norm_num)⟩

/-- C2: for every totalSize > 0 and chunkSize > 0, the length of the last
chunk produced by the multipart upload loop equals totalSize mod chunkSize
when that remainder is nonzero, and equals chunkSize otherwise; in the
concrete case totalSize = 125_000_000, chunkSize = 50_000_000 exactly 3
parts are produced, with sizes 50_000_000, 50_000_000, 25_000_000 and part
numbers 1, 2, 3. -/
theorem C2_last_chunk_length :
    (∀ total c, 0 < total → 0 < c →
      partWidth total c (numParts total c - 1) =
        if total % c = 0 then c else total % c) ∧
    numParts 125000000 50000000 = 3 ∧
    partSizes 125000000 50000000 = [50000000, 50000000, 25000000] ∧
    (multipartTry allOkOracle 125000000 50000000).calls =
      [.createMU, .uploadPartCall 1 0 50000000, .uploadPartCall 2 50000000 100000000,
       .uploadPartCall 3 100000000 125000000] ∧
    partCallNums (multipartTry allOkOracle 125000000 50000000).calls = [1, 2, 3] := by
  refine ⟨?_, by decide, by decide, by decide, by decide⟩
  intro total c ht hc
  have hnpos : 0 < numParts total c := (numParts_pos_iff total c hc).mpr ht
  have hge := numParts_mul_ge total c hc
  have hsucc : numParts total c - 1 + 1 = numParts total c := by omega
  have hwidth : partWidth total c (numParts total c - 1) =
      total - (numParts total c - 1) * c := by
    unfold partWidth partRange
    rw [hsucc]
    by_cases hgt : numParts total c * c > total
    · rw [if_pos hgt]
    · rw [if_neg hgt]
      have heq : numParts total c * c = total := le_antisymm (Nat.not_lt.mp hgt) hge
      rw [heq]
  by_cases h : total % c = 0
  · have hdvd : c ∣ total := Nat.dvd_of_mod_eq_zero h
    have hcle : c ≤ total := Nat.le_of_dvd ht hdvd
    have hqc : total / c * c = total := Nat.div_mul_cancel hdvd
    have hn : numParts total c = total / c := by
      rw [numParts_eq_div_add total c hc, h]
      simp
    have hsub : (total / c - 1) * c = total - c := by
      rw [Nat.sub_mul, Nat.one_mul, hqc]
    rw [hwidth, hn, hsub, if_pos h]
    omega
  · have hn : numParts total c = total / c + 1 := by
      rw [numParts_eq_div_add total c hc, if_neg h]
    have h2 : total / c * c + total % c = total := by
      rw [Nat.mul_comm]; exact Nat.div_add_mod total c
    rw [hwidth, hn, if_neg h]
    simp only [Nat.add_sub_cancel]
    generalize total / c * c = t at h2 ⊢
    omega

/-- Witness for C2's universally quantified conjunct at totalSize = 7,
chunkSize = 3 (a last part of 1 byte). -/
theorem C2_witness :
    0 < 7 ∧ 0 < 3 ∧
    partWidth 7 3 (numParts 7 3 - 1) = if 7 % 3 = 0 then 3 else 7 % 3 :=
  ⟨by norm_num, by norm_num, C2_last_chunk_length.1 7 3 (by norm_num) (by norm_num)⟩

/-- C3 (code evaluation at the failing input): with every `uploadPart`
succeeding and totalSize = 125_000_000, chunkSize = 50_000_000, the
progress-bar update after the final part computes 60 hash marks, so the
space padding `50 - 60` is negative, `repeat` throws `RangeError` inside
the `try` block, and `completeMultipartUpload` is never invoked, although
all three parts were uploaded. -/
theorem C3_all_success_complete_not_called :
    (multipartTry allOkOracle 125000000 50000000).result = .error .rangeError ∧
    (multipartTry allOkOracle 125000000 50000000).calls =
      [.createMU, .uploadPartCall 1 0 50000000,
       .uploadPartCall 2 50000000 100000000,
       .uploadPartCall 3 100000000 125000000] ∧
    (∀ ps, StoreCall.completeMU ps ∉
      (multipartTry allOkOracle 125000000 50000000).calls) ∧
    hashCount 125000000 50000000 3 = 60 ∧
    progressThrows 125000000 50000000 3 = true := by
  have hcalls : (multipartTry allOkOracle 125000000 50000000).calls =
      [.createMU, .uploadPartCall 1 0 50000000,
       .uploadPartCall 2 50000000 100000000,
       .uploadPartCall 3 100000000 125000000] := by decide
  refine ⟨by decide, hcalls, ?_, by decide, by decide⟩
  intro ps
  rw [hcalls]
  simp

/-- C4 (amended): if `uploadPart` throws on part k (with parts 1..k-1
succeeding), the orchestrator attempts exactly parts 1..k — with no
completeMultipartUpload call — and the raw SDK exception (carrying no
part number) aborts the `try` block; `multipartUpload`'s own `catch`
swallows it and reports the fixed generic failure message, so no error
identifying part k reaches the caller. -/
theorem C4_fail_fast (o : Oracle) (total c k : Nat) (u cause fileName : String)
    (hc : 0 < c)
    (hcr : o.createResult = .ok (some u))
    (hk : 1 ≤ k) (hkn : k ≤ numParts total c)
    (hfail : o.partResult k = .error cause)
    (hok : ∀ j, 1 ≤ j → j < k → ∃ e, o.partResult j = .ok e) :
    (multipartTry o total c).calls = .createMU :: loopCallsFrom total c 1 k ∧
    (∀ ps, StoreCall.completeMU ps ∉ (multipartTry o total c).calls) ∧
    partCallNums (multipartTry o total c).calls = List.range' 1 k ∧
    (multipartTry o total c).result = .error (.sdkError cause) ∧
    (multipartUpload o fileName total (some c)).2 = failMsg := by
  obtain ⟨hcalls, hres⟩ :=
    partsLoop_fail o total c k cause hc hk hkn hfail hok (numParts total c) 0
      (by omega) (by omega)
  rw [Nat.zero_add, Nat.sub_zero] at hcalls
  have h1 : (multipartTry o total c).calls =
      .createMU :: loopCallsFrom total c 1 k := by
    simp only [multipartTry, hcr, hres, hcalls]
  have h4 : (multipartTry o total c).result = .error (.sdkError cause) := by
    simp only [multipartTry, hcr, hres]
  have hcs : effectiveChunkSize (some c) = c := by
    simp only [effectiveChunkSize]
    rw [if_neg (by omega)]
  refine ⟨h1, ?_, ?_, h4, ?_⟩
  · intro ps
    rw [h1]
    simp [loopCallsFrom]
  · rw [h1]
    simp only [partCallNums]
    exact partCallNums_loopCallsFrom total c k 1
  · simp only [multipartUpload, hcs, h4]

/-- Witness for C4_fail_fast: part 2 of 5 fails (totalSize 5, chunkSize 1,
cause "boom"). -/
theorem C4_witness :
    0 < 1 ∧ (failAt 2).createResult = .ok (some "uid") ∧ 1 ≤ 2 ∧
    2 ≤ numParts 5 1 ∧ (failAt 2).partResult 2 = .error "boom" ∧
    ((multipartTry (failAt 2) 5 1).calls = .createMU :: loopCallsFrom 5 1 1 2 ∧
     (∀ ps, StoreCall.completeMU ps ∉ (multipartTry (failAt 2) 5 1).calls) ∧
     partCallNums (multipartTry (failAt 2) 5 1).calls = List.range' 1 2 ∧
     (multipartTry (failAt 2) 5 1).result = .error (.sdkError "boom") ∧
     (multipartUpload (failAt 2) "file.bin" 5 (some 1)).2 = failMsg) := by
  refine ⟨by norm_num, rfl, by norm_num, by decide, by decide, ?_⟩
  exact C4_fail_fast (failAt 2) 5 1 2 "uid" "boom" "file.bin" (by norm_num) rfl
    (by norm_num) (by decide) (by decide)
    (fun j hj1 hj2 => ⟨"etag", by
      have hj : j = 1 := by omega
      rw [hj]
      decide⟩)

/-- C4 (counterexample to the claim as stated): when part 2 of 5 fails,
the caller of `multipartUpload` observes exactly the same outcome (a
normal return with the fixed failure message) as when part 3 of 5 fails,
and the exception reaching the `catch` is the bare SDK cause — no
`PartUploadError\x7bpartNumber: 2\x7d` is propagated to the caller. -/
theorem C4_counterexample :
    (multipartUpload (failAt 2) "file.bin" 5 (some 1)).2 = failMsg ∧
    (multipartUpload (failAt 3) "file.bin" 5 (some 1)).2 = failMsg ∧
    (multipartUpload (failAt 2) "file.bin" 5 (some 1)).2 =
      (multipartUpload (failAt 3) "file.bin" 5 (some 1)).2 ∧
    (multipartTry (failAt 2) 5 1).result = .error (.sdkError "boom") ∧
    (multipartTry (failAt 3) 5 1).result = .error (.sdkError "boom") := by
  refine ⟨?_, ?_, ?_, by decide, by decide⟩ <;> rfl

/-- C5 (code evaluation at the failing input): at totalSize = 125_000_000,
chunkSize = 50_000_000 the percent the code computes for the final part 3
is 120, not 100 (the divisor `totalSize / chunkSize = 2.5` is not the
part count 3); moreover that final bar update throws the negative-count
`RangeError`, so the reports that actually complete are 40 and 80 — the
last completed report is 80. -/
theorem C5_final_percent_is_120 :
    progressPercent 125000000 50000000 3 = 120 ∧
    progressThrows 125000000 50000000 3 = true ∧
    (multipartTry allOkOracle 125000000 50000000).reports =
      [progressPercent 125000000 50000000 1, progressPercent 125000000 50000000 2] ∧
    progressPercent 125000000 50000000 1 = 40 ∧
    progressPercent 125000000 50000000 2 = 80 := by
  refine ⟨?_, by decide, ?_, ?_, ?_⟩
  · unfold progressPercent totalPartsQ
    norm_num
  · rfl
  · unfold progressPercent totalPartsQ
    norm_num
  · unfold progressPercent totalPartsQ
    norm_num

/-- C6 (counterexample): at totalSize = 0 the loop guard
`0 < totalSize / chunkSize` fails immediately, so zero parts are
uploaded and `completeMultipartUpload` is invoked with the empty part
list — not the degenerate single empty part the claim requires. -/
theorem C6_counterexample :
    (multipartTry allOkOracle 0 52428800).calls = [.createMU, .completeMU []] ∧
    partCallNums (multipartTry allOkOracle 0 52428800).calls = [] ∧
    (multipartTry allOkOracle 0 52428800).result = .ok "done" := by
  refine ⟨by decide, by decide, by decide⟩

/-- C6 (amended): when totalSize = 0 (and the store hands back an upload
id and accepts the completion), the loop performs zero iterations: no
part is uploaded and `completeMultipartUpload` receives the empty part
list, the attempt then succeeding with the store's completion result. -/
theorem C6_zero_total_zero_parts (o : Oracle) (u r : String) (c : Nat)
    (hcr : o.createResult = .ok (some u)) (hco : o.completeResult = .ok r)
    (hc : 0 < c) :
    (multipartTry o 0 c).calls = [.createMU, .completeMU []] ∧
    (multipartTry o 0 c).result = .ok r := by
  have hnp : numParts 0 c = 0 := by
    unfold numParts
    exact Nat.div_eq_of_lt (by omega)
  constructor
  · simp [multipartTry, hcr, hnp, partsLoop, hco]
  · simp [multipartTry, hcr, hnp, partsLoop, hco]

/-- Witness for C6_zero_total_zero_parts at the all-success oracle and the
default 50 MiB chunk size. -/
theorem C6_witness :
    allOkOracle.createResult = .ok (some "uid") ∧
    allOkOracle.completeResult = .ok "done" ∧ 0 < 52428800 ∧
    ((multipartTry allOkOracle 0 52428800).calls = [.createMU, .completeMU []] ∧
     (multipartTry allOkOracle 0 52428800).result = .ok "done") :=
  ⟨rfl, rfl, by norm_num,
    C6_zero_total_zero_parts allOkOracle "uid" "done" 52428800 rfl rfl (by norm_num)⟩

/-- C7: for every oracle and every size, no failing (or succeeding)
attempt ever issues an `abortMultipartUpload` call — the orchestrator
does not import it and has no cleanup path — and the `uploadPart` calls
of one attempt are a contiguous ascending run of part numbers starting
at 1, each attempted at most once (fail-fast, no automatic retry). -/
theorem C7_no_abort_no_retry (o : Oracle) (total c : Nat) :
    StoreCall.abortMU ∉ (multipartTry o total c).calls ∧
    ∃ m, partCallNums (multipartTry o total c).calls = List.range' 1 m := by
  obtain ⟨m, _hm, hcase⟩ := multipartTry_calls_cases o total c
  rcases hcase with h | h | ⟨ps, h⟩
  · rw [h]
    exact ⟨by simp, 0, rfl⟩
  · rw [h]
    constructor
    · intro hmem
      rcases List.mem_cons.mp hmem with h1 | h1
      · exact StoreCall.noConfusion h1
      · exact abortMU_not_mem_loopCallsFrom total c 1 m h1
    · refine ⟨m, ?_⟩
      simp only [partCallNums]
      exact partCallNums_loopCallsFrom total c m 1
  · rw [h]
    constructor
    · intro hmem
      rcases List.mem_cons.mp hmem with h1 | h1
      · exact StoreCall.noConfusion h1
      · rcases List.mem_append.mp h1 with h2 | h2
        · exact abortMU_not_mem_loopCallsFrom total c 1 m h2
        · rcases List.mem_singleton.mp h2 with h3
          exact StoreCall.noConfusion h3
    · refine ⟨m, ?_⟩
      simp only [partCallNums, partCallNums_append]
      rw [partCallNums_loopCallsFrom total c m 1]
      exact List.append_nil _

/-- C8 (counterexample): the `multipartUpload` of file-management.ts
(one of the claim's two cited code sites) defaults the chunk size to
5 MiB = 5_242_880 bytes when no option is supplied — not 50 MiB. -/
theorem C8_counterexample :
    effectiveChunkSizeFM none = 5 * 1024 * 1024 ∧
    effectiveChunkSizeFM none ≠ 50 * 1024 * 1024 := by
  exact ⟨rfl, by decide⟩

/-- C8 (amended): when no chunkSize option is supplied, the interactive
CLI's `multipartUpload` (part_000 line 287) uses exactly
50 MiB = 52_428_800 bytes, and that chunk size is constant for the whole
session — every part except possibly the last has exactly that width;
the example-script `multipartUpload` of file-management.ts line 241
instead defaults to 5 MiB. -/
theorem C8_default_chunk_size :
    effectiveChunkSize none = 50 * 1024 * 1024 ∧
    effectiveChunkSizeFM none = 5 * 1024 * 1024 ∧
    (∀ total i, i + 1 < numParts total (effectiveChunkSize none) →
      partWidth total (effectiveChunkSize none) i = 50 * 1024 * 1024) := by
  refine ⟨rfl, rfl, ?_⟩
  intro total i hi
  simp only [effectiveChunkSize] at hi ⊢
  have hc : (0 : Nat) < 50 * 1024 * 1024 := by norm_num
  have h2 : (i + 1) * (50 * 1024 * 1024) < total :=
    (lt_numParts_iff total (50 * 1024 * 1024) (i + 1) hc).mp hi
  unfold partWidth partRange
  rw [if_neg (by omega)]
  dsimp only
  omega

/-- Witness for C8_default_chunk_size's universally quantified conjunct:
the first part of a 125_000_000-byte upload at the default chunk size is
exactly 50 MiB wide. -/
theorem C8_witness :
    0 + 1 < numParts 125000000 (effectiveChunkSize none) ∧
    partWidth 125000000 (effectiveChunkSize none) 0 = 50 * 1024 * 1024 :=
  ⟨by decide, C8_default_chunk_size.2.2 125000000 0 (by decide)⟩

/-- C9: every chunkSize option value, including an explicit 0 (falsy in
JS, so the `||` falls back to the 50 MiB default), yields a positive
effective chunk size, and with a positive chunk size the loop guard
`i < totalSize / chunkSize` fails after at most
numParts = ceil(totalSize/chunkSize) iterations: whatever the oracle
does, an attempt issues at most that many `uploadPart` calls. -/
theorem C9_chunk_fallback_loop_bounded (copt : Option Nat) (o : Oracle)
    (total : Nat) :
    0 < effectiveChunkSize copt ∧
    (partCallNums (multipartTry o total (effectiveChunkSize copt)).calls).length ≤
      numParts total (effectiveChunkSize copt) := by
  constructor
  · cases copt with
    | none => decide
    | some c =>
      simp only [effectiveChunkSize]
      by_cases hc : c = 0
      · rw [if_pos hc]; decide
      · rw [if_neg hc]; omega
  · obtain ⟨m, hm, hcase⟩ :=
      multipartTry_calls_cases o total (effectiveChunkSize copt)
    rcases hcase with h | h | ⟨ps, h⟩
    · rw [h]
      simp [partCallNums]
    · rw [h]
      simp only [partCallNums]
      rw [partCallNums_loopCallsFrom, List.length_range']
      exact hm
    · rw [h]
      simp only [partCallNums, partCallNums_append]
      rw [partCallNums_loopCallsFrom, List.append_nil, List.length_range']
      exact hm

/-- C10: with the singleton uninitialized, every storage operation fails
with the `getR2Client` error — whose message extends the claim's
"R2 client not initialized" — before any command is constructed; once
`initR2Client` has installed a client, every operation returns a command
paired with that same single client instance. -/
theorem C10_client_singleton (bucket key uploadId sb sk db dk : String)
    (pn : Nat) (body : List Nat) (ct : Option String)
    (md : List (String × String)) (parts : List PartRecord)
    (cfg : R2Config) (st : Option S3Client) :
    putObject none bucket key body ct md = .error notInitMsg ∧
    createMultipartUpload none bucket key ct md = .error notInitMsg ∧
    uploadPart none bucket key uploadId pn body = .error notInitMsg ∧
    completeMultipartUpload none bucket key uploadId parts = .error notInitMsg ∧
    abortMultipartUpload none bucket key uploadId = .error notInitMsg ∧
    copyObject none sb sk db dk = .error notInitMsg ∧
    notInitMsg = "R2 client not initialized" ++ ". Call initR2Client() first." ∧
    getR2Client (initR2Client cfg st) = .ok (createR2Client cfg) ∧
    putObject (initR2Client cfg st) bucket key body ct md =
      .ok (createR2Client cfg, .putObjectCmd bucket key body ct md) ∧
    createMultipartUpload (initR2Client cfg st) bucket key ct md =
      .ok (createR2Client cfg, .createMultipartUploadCmd bucket key ct md) ∧
    uploadPart (initR2Client cfg st) bucket key uploadId pn body =
      .ok (createR2Client cfg, .uploadPartCmd bucket key uploadId pn body) ∧
    completeMultipartUpload (initR2Client cfg st) bucket key uploadId parts =
      .ok (createR2Client cfg, .completeMultipartUploadCmd bucket key uploadId parts) ∧
    abortMultipartUpload (initR2Client cfg st) bucket key uploadId =
      .ok (createR2Client cfg, .abortMultipartUploadCmd bucket key uploadId) ∧
    copyObject (initR2Client cfg st) sb sk db dk =
      .ok (createR2Client cfg, .copyObjectCmd sb sk db dk) :=
  ⟨rfl, rfl, rfl, rfl, rfl, rfl, rfl, rfl, rfl, rfl, rfl, rfl, rfl, rfl⟩
